import Mathlib

/-!
Verification of the Firewatch-Cloud ingestion pipeline.

The development shallowly embeds the four Lambda entry points of the
repository (`fetch_fires.py`, `process_fires.py`, `stream_processor.py`,
`lambda_function.py`).  External collaborators (DynamoDB, SQS, SNS, the
reverse-geocode service, the wall clock) are modelled as explicit
parameters: the store is an association list keyed by `fire_id`, the
geocode lookup outcome and any non-duplicate store error are inputs of a
processing step, and the current time is a natural-number tick passed to
the handler.  Numeric wire values are carried in their string form; the
claims under study never compute with them.
-/

namespace ProcessFires

/-- Incoming fire dictionary of one SQS message (`fires` entry).  A field
is `none` when the key is absent from the JSON object; values are kept in
their wire string form. -/
structure FireInput where
  latitude : Option String
  longitude : Option String
  brightness : Option String
  confidence : Option String
  frp : Option String
  acq_date : Option String
  acq_time : Option String
  satellite : Option String
  instrument : Option String
  daynight : Option String
deriving DecidableEq, Repr

/-- Body of a successful reverse-geocode response; each field is `none`
when the corresponding key is missing from the JSON payload. -/
structure GeoResponse where
  city : Option String
  locality : Option String
  countryName : Option String
  principalSubdivision : Option String
deriving DecidableEq, Repr

/-- `get_location_from_coordinates`: a failed lookup (timeout, non-2xx,
malformed body — all taken by the single `except` branch, modelled as
`none`) yields the four-field default dictionary; a successful response is
returned as is. -/
def get_location_from_coordinates (resp : Option GeoResponse) : GeoResponse :=
  match resp with
  | some r => r
  | none => { city := some "Unknown", locality := some "Unknown",
              countryName := some "Unknown", principalSubdivision := some "Unknown" }

/-- The `fire_record` dictionary built by `process_fire`; every key is
present (defaults applied). -/
structure FireRecord where
  latitude : String
  longitude : String
  brightness : String
  confidence : String
  frp : String
  acq_date : String
  acq_time : String
  satellite : String
  instrument : String
  daynight : String
  location_city : String
  location_locality : String
  location_country : String
  location_state : String
deriving DecidableEq, Repr

/-- Construction of `fire_record` inside `process_fire`: `.get` defaults
for the detection fields (`0` rendered as `"0"` for the numeric defaults)
and `"Unknown"` defaults for the location fields. -/
def buildRecord (lat lon : String) (fire : FireInput) (loc : GeoResponse) : FireRecord :=
  { latitude := lat
    longitude := lon
    brightness := fire.brightness.getD "0"
    confidence := fire.confidence.getD "unknown"
    frp := fire.frp.getD "0"
    acq_date := fire.acq_date.getD ""
    acq_time := fire.acq_time.getD ""
    satellite := fire.satellite.getD ""
    instrument := fire.instrument.getD ""
    daynight := fire.daynight.getD ""
    location_city := loc.city.getD "Unknown"
    location_locality := loc.locality.getD "Unknown"
    location_country := loc.countryName.getD "Unknown"
    location_state := loc.principalSubdivision.getD "Unknown" }

/-- The DynamoDB item written by `store_fire_data`.  `Decimal(str(x))`
keeps the string form; `created_at` (`datetime.now().isoformat()`) is
modelled by the same clock tick as `timestamp`. -/
structure Item where
  fire_id : String
  timestamp : Nat
  latitude : String
  longitude : String
  brightness : String
  confidence : String
  frp : String
  acq_date : String
  acq_time : String
  satellite : String
  instrument : String
  daynight : String
  location_city : String
  location_locality : String
  location_state : String
  location_country : String
  created_at : Nat
deriving DecidableEq, Repr

/-- The DynamoDB table: an association list from `fire_id` to the stored
item, in insertion order. -/
abbrev Store := List (String × Item)

/-- Key membership test used by the conditional write. -/
def hasKey (s : Store) (k : String) : Bool :=
  s.any (fun p => p.1 == k)

/-- The `fire_id` derivation of `store_fire_data`: the acquisition key is
`acq_date ++ "_" ++ acq_time`, and the ingest-timestamp fallback fires
exactly when that key equals `"_"`. -/
def fire_id_of (r : FireRecord) (ts : Nat) : String :=
  let acq_datetime := r.acq_date ++ "_" ++ r.acq_time
  if acq_datetime = "_" then
    r.latitude ++ "_" ++ r.longitude ++ "_" ++ Nat.repr ts
  else
    r.latitude ++ "_" ++ r.longitude ++ "_" ++ acq_datetime

/-- `if fire['brightness'] else Decimal('0')`: the Python truthiness test
on a numeric wire value, on its string form. -/
def truthyNum (s : String) : Bool :=
  !(s == "" || s == "0" || s == "0.0")

/-- The item assembled by `store_fire_data` before the conditional put. -/
def mkItem (r : FireRecord) (ts : Nat) : Item :=
  { fire_id := fire_id_of r ts
    timestamp := ts
    latitude := r.latitude
    longitude := r.longitude
    brightness := if truthyNum r.brightness then r.brightness else "0"
    confidence := r.confidence
    frp := if truthyNum r.frp then r.frp else "0"
    acq_date := r.acq_date
    acq_time := r.acq_time
    satellite := r.satellite
    instrument := r.instrument
    daynight := r.daynight
    location_city := r.location_city
    location_locality := r.location_locality
    location_state := r.location_state
    location_country := r.location_country
    created_at := ts }

/-- Result of one conditional write. -/
inductive WriteOutcome
  | inserted
  | duplicate
  | failed (msg : String)
deriving DecidableEq, Repr

/-- `store_fire_data`: derives `fire_id`, builds the item and performs
`put_item` with `ConditionExpression = attribute_not_exists(fire_id)`.
A `ConditionalCheckFailedException` is caught and logged (`duplicate`);
any other store error (`fault`, injected by the environment) is re-raised
(`failed`). -/
def store_fire_data (fault : Option String) (store : Store) (r : FireRecord)
    (ts : Nat) : Store × WriteOutcome :=
  match fault with
  | some m => (store, .failed m)
  | none =>
    let it := mkItem r ts
    if hasKey store it.fire_id then
      (store, .duplicate)
    else
      (store ++ [(it.fire_id, it)], .inserted)

/-- Result of `process_fire`: a returned boolean, or a re-raised
exception. -/
inductive ProcessResult
  | boolResult (b : Bool)
  | raised (msg : String)
deriving DecidableEq, Repr

/-- Mapping of the store outcome to what `process_fire` does with it: a
non-duplicate store error propagates, everything else returns `True`. -/
def afterStore (out : Store × WriteOutcome) : Store × ProcessResult :=
  match out with
  | (s, .failed m) => (s, .raised m)
  | (s, _) => (s, .boolResult true)

/-- `process_fire`: skips (returns `False`) when either coordinate key is
absent, otherwise geocodes, builds the record and stores it.  `geo` is
the outcome of the reverse-geocode call for this detection (`none` =
the call failed); `fault` is a non-duplicate store error injected by the
environment (`none` = the write itself succeeds or hits the duplicate
condition). -/
def process_fire (fire : FireInput) (geo : Option GeoResponse)
    (fault : Option String) (ts : Nat) (store : Store) : Store × ProcessResult :=
  match fire.latitude, fire.longitude with
  | some lat, some lon =>
    let loc := get_location_from_coordinates geo
    let r := buildRecord lat lon fire loc
    afterStore (store_fire_data fault store r ts)
  | _, _ => (store, .boolResult false)

/-- One detection of a delivery together with the behaviour of its
external collaborators during this processing attempt. -/
structure FireCase where
  fire : FireInput
  geo : Option GeoResponse
  fault : Option String
deriving DecidableEq, Repr

/-- One entry of the handler error list: either a per-fire error or a
per-SQS-record error. -/
inductive ErrEntry
  | fireErr (fire : FireInput) (err : String)
  | recordErr (messageId : String) (err : String)
deriving DecidableEq, Repr

/-- One SQS record of the delivery: a body whose JSON parse fails, or a
parsed message carrying a batch of fires. -/
inductive SQSBody
  | malformed (messageId : String) (err : String)
  | message (fires : List FireCase)
deriving DecidableEq, Repr

/-- Mutable state of the handler loop. -/
structure HState where
  store : Store
  processed : Nat
  stored : Nat
  errs : List ErrEntry
deriving DecidableEq, Repr

/-- Inner loop body of `lambda_handler`: process one fire, count it, and
record a per-fire error when `process_fire` raises. -/
def stepFire (ts : Nat) (h : HState) (c : FireCase) : HState :=
  match process_fire c.fire c.geo c.fault ts h.store with
  | (s, .boolResult b) =>
    { store := s
      processed := h.processed + 1
      stored := if b then h.stored + 1 else h.stored
      errs := h.errs }
  | (s, .raised m) =>
    { store := s
      processed := h.processed
      stored := h.stored
      errs := h.errs ++ [.fireErr c.fire m] }

/-- Outer loop body of `lambda_handler`: a malformed body records a
per-record error, a parsed message runs the inner loop. -/
def stepBody (ts : Nat) (h : HState) (b : SQSBody) : HState :=
  match b with
  | .malformed mid e => { h with errs := h.errs ++ [.recordErr mid e] }
  | .message fires => fires.foldl (stepFire ts) h

/-- The summary returned by the processor handler. -/
structure ProcResponse where
  statusCode : Nat
  processed : Nat
  stored : Nat
  errors : Nat
  error_details : List ErrEntry
deriving DecidableEq, Repr

/-- `lambda_handler` of `process_fires.py`: loops over the SQS records and
returns the partial-success summary (`207` when the error list is
non-empty, `200` otherwise, details capped at 10). -/
def lambda_handler (event : List SQSBody) (ts : Nat) (store : Store) :
    Store × ProcResponse :=
  let h := event.foldl (stepBody ts) ⟨store, 0, 0, []⟩
  (h.store,
   { statusCode := if h.errs.isEmpty then 200 else 207
     processed := h.processed
     stored := h.stored
     errors := h.errs.length
     error_details := h.errs.take 10 })

end ProcessFires

namespace StreamProcessor

/-- The fire record produced by `parse_dynamodb_item`.  Numeric attributes
are carried in their wire string form (`float` parsing is display-only in
this component). -/
structure StreamFire where
  fire_id : String
  latitude : String
  longitude : String
  brightness : String
  confidence : String
  frp : String
  location_city : String
  location_state : String
  location_country : String
  satellite : String
  acq_date : String
  acq_time : String
deriving DecidableEq, Repr

/-- A DynamoDB stream image: each attribute is `none` when the key is
absent (the nested `.get(name, {}).get(tag, default)` access). -/
structure DynImage where
  fire_id : Option String
  latitude : Option String
  longitude : Option String
  brightness : Option String
  confidence : Option String
  frp : Option String
  location_city : Option String
  location_state : Option String
  location_country : Option String
  satellite : Option String
  acq_date : Option String
  acq_time : Option String
deriving DecidableEq, Repr

/-- `parse_dynamodb_item`: applies the per-attribute defaults (`0` for the
numeric attributes, rendered `"0"`). -/
def parse_dynamodb_item (it : DynImage) : StreamFire :=
  { fire_id := it.fire_id.getD ""
    latitude := it.latitude.getD "0"
    longitude := it.longitude.getD "0"
    brightness := it.brightness.getD "0"
    confidence := it.confidence.getD "unknown"
    frp := it.frp.getD "0"
    location_city := it.location_city.getD "Unknown"
    location_state := it.location_state.getD "Unknown"
    location_country := it.location_country.getD "Unknown"
    satellite := it.satellite.getD ""
    acq_date := it.acq_date.getD ""
    acq_time := it.acq_time.getD "" }

/-- One DynamoDB stream record; the images are `none` when the
corresponding key is missing from the event (dictionary access then
raises). -/
structure StreamRecord where
  eventName : String
  newImage : Option DynImage
  oldImage : Option DynImage
deriving DecidableEq, Repr

/-- One line of the alert message.  Lines carrying data keep the data the
source interpolates into them (wall-clock formatting of the detection
time and decimal formatting of coordinates and FRP are display-only). -/
inductive MsgLine
  | summary (total : Nat)
  | blank
  | text (s : String)
  | countryHeader (country : String) (count : Nat)
  | detailLoc (f : StreamFire)
  | detailConf (f : StreamFire)
  | overflow (k : Nat)
  | detectionTime
deriving DecidableEq, Repr

/-- The fixed lines put at the head of every alert message. -/
def headerLines (total : Nat) : List MsgLine :=
  [.summary total, .blank, .text "Summary by Country:", .text "separator"]

/-- The fixed lines put at the tail of every alert message. -/
def footerLines : List MsgLine :=
  [.blank, .text "separator", .detectionTime, .blank,
   .text "This is an automated alert from Firewatch."]

/-- One iteration of the grouping loop of `send_fire_alerts`: append the
fire to its country entry of the insertion-ordered dictionary, creating
the entry at the end when absent. -/
def addFire (acc : List (String × List StreamFire)) (f : StreamFire) :
    List (String × List StreamFire) :=
  if acc.any (fun p => p.1 == f.location_country) then
    acc.map (fun p => if p.1 == f.location_country then (p.1, p.2 ++ [f]) else p)
  else
    acc ++ [(f.location_country, [f])]

/-- `fires_by_country`: the insertion-ordered dictionary from country to
the fires of that country, in arrival order. -/
def fires_by_country (fires : List StreamFire) : List (String × List StreamFire) :=
  fires.foldl addFire []

/-- Comparison used by `sorted(fires_by_country.items())`: country keys
are compared lexicographically (keys of a dictionary are distinct, so the
tuple comparison never reaches the values). -/
def keyLE (a b : String × List StreamFire) : Prop :=
  a.1 ≤ b.1

instance : DecidableRel keyLE := fun a b => inferInstanceAs (Decidable (a.1 ≤ b.1))

instance : IsTotal (String × List StreamFire) keyLE := ⟨fun a b => le_total a.1 b.1⟩

instance : IsTrans (String × List StreamFire) keyLE := ⟨fun _ _ _ h1 h2 => le_trans h1 h2⟩

/-- The country groups in the order the message renders them. -/
def sorted_groups (fires : List StreamFire) : List (String × List StreamFire) :=
  (fires_by_country fires).insertionSort keyLE

/-- The message block of one country group: blank line, country header,
two detail lines for each of the first 5 fires, and the overflow line
when the group has more than 5 fires. -/
def countryBlock (p : String × List StreamFire) : List MsgLine :=
  [.blank, .countryHeader p.1 p.2.length]
    ++ (p.2.take 5).flatMap (fun f => [.detailLoc f, .detailConf f])
    ++ (if 5 < p.2.length then [MsgLine.overflow (p.2.length - 5)] else [])

/-- The full alert message assembled by `send_fire_alerts`. -/
def alertMessage (fires : List StreamFire) : List MsgLine :=
  headerLines fires.length ++ (sorted_groups fires).flatMap countryBlock ++ footerLines

/-- Argument of one `sns.publish` call: the subject count, the
`countries` message attribute (keys in insertion order) and the message
body. -/
structure SnsPublish where
  total : Nat
  countries : List String
  message : List MsgLine
deriving DecidableEq, Repr

/-- `send_fire_alerts`: builds the message and attempts exactly one
publish.  `publishOk` is the behaviour of the SNS collaborator; a failed
publish raises out of the function (the internal `except` logs and
re-raises).  Returns the attempted publish calls and the outcome. -/
def send_fire_alerts (publishOk : Bool) (fires : List StreamFire) :
    List SnsPublish × Except String Unit :=
  let pub : SnsPublish :=
    { total := fires.length
      countries := (fires_by_country fires).map Prod.fst
      message := alertMessage fires }
  ([pub], if publishOk then .ok () else .error "publish error")

/-- Classification loop of the stream handler: INSERT images go to
`new_fires`, MODIFY to `updated_fires`, REMOVE to `removed_fires`, any
other event name is ignored.  A record whose required image key is
missing raises. -/
def classify :
    List StreamRecord → Except String (List StreamFire × List StreamFire × List StreamFire)
  | [] => .ok ([], [], [])
  | r :: rest =>
    if r.eventName == "INSERT" then
      match r.newImage with
      | none => .error "KeyError: NewImage"
      | some img => do
        let (n, u, d) ← classify rest
        .ok (parse_dynamodb_item img :: n, u, d)
    else if r.eventName == "MODIFY" then
      match r.newImage with
      | none => .error "KeyError: NewImage"
      | some img => do
        let (n, u, d) ← classify rest
        .ok (n, parse_dynamodb_item img :: u, d)
    else if r.eventName == "REMOVE" then
      match r.oldImage with
      | none => .error "KeyError: OldImage"
      | some img => do
        let (n, u, d) ← classify rest
        .ok (n, u, parse_dynamodb_item img :: d)
    else classify rest

/-- The value returned by the stream handler: the 200 body with the three
counters, or the 500 error body. -/
inductive StreamResponse
  | success (new_fires updated_fires removed_fires : Nat)
  | failure (error : String)
deriving DecidableEq, Repr

/-- Status code of a stream handler response. -/
def StreamResponse.statusCode : StreamResponse → Nat
  | .success _ _ _ => 200
  | .failure _ => 500

/-- `lambda_handler` of `stream_processor.py`.  The whole body is inside
`try/except`, so every path returns normally: the `Except` layer of the
result records whether the invocation itself raised (it never does), and
the list collects the attempted publish calls. -/
def lambda_handler (events : List StreamRecord) (publishOk : Bool) :
    Except String StreamResponse × List SnsPublish :=
  match classify events with
  | .error e => (.ok (.failure e), [])
  | .ok (n, u, d) =>
    if n.isEmpty then
      (.ok (.success 0 u.length d.length), [])
    else
      match send_fire_alerts publishOk n with
      | (calls, .ok _) => (.ok (.success n.length u.length d.length), calls)
      | (calls, .error e) => (.ok (.failure e), calls)

end StreamProcessor

namespace PyStr

/-- Splitting of a character list at every occurrence of a separator
character; empty segments are kept, as with the Python `str.split`
separator form. -/
def splitChars (c : Char) : List Char → List (List Char)
  | [] => [[]]
  | x :: xs =>
    let r := splitChars c xs
    if x = c then [] :: r
    else
      match r with
      | [] => [[x]]
      | y :: ys => (x :: y) :: ys

/-- Python `s.split(c)` for a one-character separator. -/
def split (c : Char) (s : String) : List String :=
  (splitChars c s.data).map (fun l => String.mk l)

/-- Python `s.strip()`: leading and trailing whitespace removed. -/
def strip (s : String) : String :=
  String.mk (((s.data.dropWhile Char.isWhitespace).reverse.dropWhile
    Char.isWhitespace).reverse)

end PyStr

namespace FetchFires

/-- One validated detection parsed from a row of the FIRMS tabular
response.  `α` is the value type produced by the numeric parser (the
Python `float`); string columns keep their text. -/
structure RawDetection (α : Type) where
  latitude : α
  longitude : α
  brightness : α
  confidence : String
  frp : α
  acq_date : String
  acq_time : String
  satellite : String
  instrument : String
  daynight : String
deriving DecidableEq, Repr

/-- Lookup in the dictionary built by `dict(zip(header, values))`: the
last occurrence of a duplicated key wins. -/
def dget (d : List (String × String)) (k : String) : Option String :=
  (d.reverse.find? (fun p => p.1 == k)).map Prod.snd

/-- A numeric column: `float(fire.get(k, 0))`.  When the key is absent the
integer default `0` converts without error; when present, the parse may
fail (`ValueError`). -/
def numField (pf : String → Option α) (zero : α) (d : List (String × String))
    (k : String) : Option α :=
  match dget d k with
  | some s => pf s
  | none => some zero

/-- Parsing of one data row: `none` when the row is shorter than the
header (skipped before the `try`) or when any of the four numeric columns
fails to parse (the `except (ValueError, KeyError)` branch). -/
def parseRow (pf : String → Option α) (zero : α) (header : List String)
    (line : String) : Option (RawDetection α) :=
  let values := PyStr.split ',' line
  if values.length < header.length then none
  else
    let d := header.zip values
    match numField pf zero d "latitude", numField pf zero d "longitude",
          numField pf zero d "brightness", numField pf zero d "frp" with
    | some la, some lo, some br, some fr =>
      some { latitude := la
             longitude := lo
             brightness := br
             frp := fr
             confidence := (dget d "confidence").getD "unknown"
             acq_date := (dget d "acq_date").getD ""
             acq_time := (dget d "acq_time").getD ""
             satellite := (dget d "satellite").getD ""
             instrument := (dget d "instrument").getD ""
             daynight := (dget d "daynight").getD "" }
    | _, _, _, _ => none

/-- The row loop of `parse_csv_data`: appends each successfully parsed
row and `continue`s over skipped ones. -/
def parseRowsLoop (pf : String → Option α) (zero : α) (header : List String) :
    List String → List (RawDetection α)
  | [] => []
  | line :: rest =>
    match parseRow pf zero header line with
    | some r => r :: parseRowsLoop pf zero header rest
    | none => parseRowsLoop pf zero header rest

/-- `parse_csv_data`: strips the body, splits it into lines, returns no
detections when fewer than two lines remain, and otherwise runs the row
loop against the header. -/
def parse_csv_data (pf : String → Option α) (zero : α) (csv : String) :
    List (RawDetection α) :=
  let lines := PyStr.split '\n' (PyStr.strip csv)
  if lines.length < 2 then []
  else
    match lines with
    | [] => []
    | header :: rows => parseRowsLoop pf zero (PyStr.split ',' header) rows

/-- Concrete stand-in for the Python `float` parser, used to instantiate
the parser parameter on concrete inputs: accepts digit-only strings. -/
def digitsNum (s : String) : Option Nat :=
  if s.data ≠ [] && s.data.all Char.isDigit then
    some (s.data.foldl (fun n c => n * 10 + (c.toNat - 48)) 0)
  else
    none

end FetchFires

namespace LambdaFunction

/-- The `fire_record` dictionary built by the alternate handler of
`lambda_function.py`; it has no acquisition or satellite fields. -/
structure LFRecord where
  latitude : String
  longitude : String
  brightness : String
  confidence : String
  frp : String
  location_city : String
  location_locality : String
  location_country : String
  location_state : String
deriving DecidableEq, Repr

/-- The item written by the alternate `store_fire_data`. -/
structure LFItem where
  fire_id : String
  timestamp : Nat
  latitude : String
  longitude : String
  brightness : String
  confidence : String
  frp : String
  location_city : String
  location_locality : String
  location_state : String
  location_country : String
  created_at : Nat
deriving DecidableEq, Repr

/-- The DynamoDB table seen by the alternate handler. -/
abbrev LFStore := List (String × LFItem)

/-- Unconditional `put_item`: DynamoDB replaces the item carrying the
same key, otherwise appends. -/
def put_item (store : LFStore) (it : LFItem) : LFStore :=
  if store.any (fun p => p.1 == it.fire_id) then
    store.map (fun p => if p.1 == it.fire_id then (it.fire_id, it) else p)
  else
    store ++ [(it.fire_id, it)]

/-- The `fire_id` derivation of the alternate `store_fire_data`: always
coordinates plus the ingest timestamp. -/
def lfFireId (lat lon : String) (ts : Nat) : String :=
  lat ++ "_" ++ lon ++ "_" ++ Nat.repr ts

/-- The alternate `store_fire_data`: timestamp-keyed `fire_id` and an
unconditional put. -/
def store_fire_data (store : LFStore) (r : LFRecord) (ts : Nat) : LFStore :=
  let fid := lfFireId r.latitude r.longitude ts
  put_item store
    { fire_id := fid
      timestamp := ts
      latitude := r.latitude
      longitude := r.longitude
      brightness := if ProcessFires.truthyNum r.brightness then r.brightness else "0"
      confidence := r.confidence
      frp := if ProcessFires.truthyNum r.frp then r.frp else "0"
      location_city := r.location_city
      location_locality := r.location_locality
      location_state := r.location_state
      location_country := r.location_country
      created_at := ts }

/-- `get_location_from_coordinates` of `lambda_function.py`: identical
failure behaviour to the processor variant. -/
def get_location_from_coordinates (resp : Option ProcessFires.GeoResponse) :
    ProcessFires.GeoResponse :=
  match resp with
  | some r => r
  | none => { city := some "Unknown", locality := some "Unknown",
              countryName := some "Unknown", principalSubdivision := some "Unknown" }

/-- The `fire_record` built by the alternate handler: note the absence of
the acquisition fields of the input. -/
def buildRecord (lat lon : String) (fire : ProcessFires.FireInput)
    (loc : ProcessFires.GeoResponse) : LFRecord :=
  { latitude := lat
    longitude := lon
    brightness := fire.brightness.getD "0"
    confidence := fire.confidence.getD "unknown"
    frp := fire.frp.getD "0"
    location_city := loc.city.getD "Unknown"
    location_locality := loc.locality.getD "Unknown"
    location_country := loc.countryName.getD "Unknown"
    location_state := loc.principalSubdivision.getD "Unknown" }

/-- One entry of the `results` list of the alternate handler. -/
structure LFResult where
  coordinates : String
  location : String
  status : String
deriving DecidableEq, Repr

/-- The body returned by the alternate handler. -/
structure LFResponse where
  statusCode : Nat
  stored_successfully : Nat
  results : List LFResult
deriving DecidableEq, Repr

/-- Loop state of the alternate handler. -/
structure LFState where
  store : LFStore
  stored_count : Nat
  results : List LFResult
deriving DecidableEq, Repr

/-- Loop body of the alternate handler: skip a fire missing a coordinate
key, otherwise geocode, build the record, store unconditionally, count it
and append a success result. -/
def stepFire (ts : Nat) (h : LFState)
    (c : ProcessFires.FireInput × Option ProcessFires.GeoResponse) : LFState :=
  match c.1.latitude, c.1.longitude with
  | some lat, some lon =>
    let loc := get_location_from_coordinates c.2
    let r := buildRecord lat lon c.1 loc
    { store := store_fire_data h.store r ts
      stored_count := h.stored_count + 1
      results := h.results ++
        [{ coordinates := lat ++ ", " ++ lon
           location := r.location_city ++ ", " ++ r.location_state
           status := "success" }] }
  | _, _ => h

/-- `lambda_handler` of `lambda_function.py`: 400 on an empty fire list,
otherwise the processing loop and a 200 summary. -/
def lambda_handler
    (fires : List (ProcessFires.FireInput × Option ProcessFires.GeoResponse))
    (ts : Nat) (store : LFStore) : LFStore × LFResponse :=
  if fires.isEmpty then
    (store, { statusCode := 400, stored_successfully := 0, results := [] })
  else
    let h := fires.foldl (stepFire ts) ⟨store, 0, []⟩
    (h.store,
     { statusCode := 200
       stored_successfully := h.stored_count
       results := h.results })

end LambdaFunction

/-- Fuel-free form of the decimal digit list produced by `Nat.toDigits`,
used to reason about the timestamp component of `fire_id` strings. -/
def digitsRec (n : Nat) : List Char :=
  if _h : n < 10 then [Nat.digitChar n]
  else digitsRec (n / 10) ++ [Nat.digitChar (n % 10)]
decreasing_by
  exact Nat.div_lt_self (by omega) (by omega)

namespace ProcessFires

/-- The keys of the store, in insertion order. -/
def keys (s : Store) : List String :=
  s.map Prod.fst

/-- The acquisition condition actually tested by `store_fire_data`: both
acquisition fields of the incoming fire default to the empty string. -/
def acqBothEmpty (fire : FireInput) : Prop :=
  fire.acq_date.getD "" = "" ∧ fire.acq_time.getD "" = ""

instance (fire : FireInput) : Decidable (acqBothEmpty fire) := by
  unfold acqBothEmpty; infer_instance

/-- A detection with coordinates but no acquisition date or time. -/
def fireNoAcq : FireInput :=
  { latitude := some "1.0", longitude := some "2.0", brightness := none,
    confidence := none, frp := none, acq_date := none, acq_time := none,
    satellite := none, instrument := none, daynight := none }

/-- A single-detection chunk built from `fireNoAcq`, with a failed
geocode lookup and a healthy store. -/
def chunkNoAcq : List FireCase :=
  [{ fire := fireNoAcq, geo := none, fault := none }]

/-- A detection carrying an acquisition date but an empty acquisition
time. -/
def fireDateOnly : FireInput :=
  { latitude := some "1.0", longitude := some "2.0", brightness := none,
    confidence := none, frp := none, acq_date := some "2024-01-01",
    acq_time := none, satellite := none, instrument := none, daynight := none }

/-- A fully populated detection. -/
def fireA : FireInput :=
  { latitude := some "10.5", longitude := some "-20.25",
    brightness := some "330.1", confidence := some "high", frp := some "12.3",
    acq_date := some "2024-05-01", acq_time := some "0130",
    satellite := some "N", instrument := some "VIIRS", daynight := some "D" }

/-- A second detection at different coordinates. -/
def fireB : FireInput :=
  { latitude := some "33.0", longitude := some "44.0",
    brightness := some "310.0", confidence := some "nominal", frp := some "5.0",
    acq_date := some "2024-05-01", acq_time := some "0131",
    satellite := some "N", instrument := some "VIIRS", daynight := some "N" }

/-- A detection with no coordinate keys at all. -/
def fireNoCoords : FireInput :=
  { latitude := none, longitude := none, brightness := none,
    confidence := none, frp := none, acq_date := some "2024-05-01",
    acq_time := some "0132", satellite := none, instrument := none,
    daynight := none }

/-- A delivery carrying the same detection twice (identical `fire_id`). -/
def duplicateDelivery : List SQSBody :=
  [.message [{ fire := fireA, geo := none, fault := none },
             { fire := fireA, geo := none, fault := none }]]

/-- A delivery with a duplicated detection, a detection whose store write
fails with a non-duplicate error, and a detection without coordinates. -/
def mixedDelivery : List SQSBody :=
  [.message [{ fire := fireA, geo := none, fault := none },
             { fire := fireA, geo := none, fault := none },
             { fire := fireB, geo := none, fault := some "InternalServerError" },
             { fire := fireNoCoords, geo := none, fault := none }]]

end ProcessFires

namespace StreamProcessor

/-- The fires shown by the detail lines of a message block, in order. -/
def detailFires (block : List MsgLine) : List StreamFire :=
  block.filterMap (fun l => match l with | .detailLoc f => some f | _ => none)

/-- The overflow lines of a message block. -/
def overflowOf (block : List MsgLine) : List MsgLine :=
  block.filter (fun l => match l with | .overflow _ => true | _ => false)

/-- The parsed post-images of the INSERT records of a delivery, in
order. -/
def insertsOf (events : List StreamRecord) : List StreamFire :=
  events.filterMap (fun r =>
    if r.eventName == "INSERT" then r.newImage.map parse_dynamodb_item else none)

/-- The parsed post-images of the MODIFY records of a delivery. -/
def modifiesOf (events : List StreamRecord) : List StreamFire :=
  events.filterMap (fun r =>
    if r.eventName == "MODIFY" then r.newImage.map parse_dynamodb_item else none)

/-- The parsed pre-images of the REMOVE records of a delivery. -/
def removesOf (events : List StreamRecord) : List StreamFire :=
  events.filterMap (fun r =>
    if r.eventName == "REMOVE" then r.oldImage.map parse_dynamodb_item else none)

/-- A stream record carries the image its event kind dereferences. -/
def wellFormed (r : StreamRecord) : Prop :=
  (r.eventName = "INSERT" → r.newImage.isSome = true)
  ∧ (r.eventName = "MODIFY" → r.newImage.isSome = true)
  ∧ (r.eventName = "REMOVE" → r.oldImage.isSome = true)

instance (r : StreamRecord) : Decidable (wellFormed r) := by
  unfold wellFormed; infer_instance

/-- A concrete stream image. -/
def imgNamed (id city country : String) : DynImage :=
  { fire_id := some id, latitude := some "25.6866", longitude := some "-100.3161",
    brightness := some "330.5", confidence := some "high", frp := some "12.3",
    location_city := some city, location_state := some "Nuevo Leon",
    location_country := some country, satellite := some "N",
    acq_date := some "2024-05-01", acq_time := some "0130" }

/-- A concrete parsed stream fire. -/
def fireNamed (id city country : String) : StreamFire :=
  parse_dynamodb_item (imgNamed id city country)

/-- Six INSERTed fires, all in Mexico. -/
def mexSix : List StreamFire :=
  [fireNamed "f1" "Monterrey" "Mexico", fireNamed "f2" "Apodaca" "Mexico",
   fireNamed "f3" "Guadalupe" "Mexico", fireNamed "f4" "Escobedo" "Mexico",
   fireNamed "f5" "Santiago" "Mexico", fireNamed "f6" "Linares" "Mexico"]

/-- A delivery with a single INSERT record. -/
def oneInsertDelivery : List StreamRecord :=
  [{ eventName := "INSERT", newImage := some (imgNamed "f1" "Monterrey" "Mexico"),
     oldImage := none }]

/-- A delivery with one MODIFY and one REMOVE record and no INSERT. -/
def modifyRemoveDelivery : List StreamRecord :=
  [{ eventName := "MODIFY", newImage := some (imgNamed "f1" "Monterrey" "Mexico"),
     oldImage := none },
   { eventName := "REMOVE", newImage := none,
     oldImage := some (imgNamed "f2" "Apodaca" "Mexico") }]

end StreamProcessor

namespace FetchFires

/-- A tabular response with three valid rows and one row whose latitude
does not parse. -/
def exampleCsv : String :=
  "latitude,longitude,brightness,frp,confidence\n10,20,300,5,high\nabc,20,300,5,low\n11,21,301,6,nominal\n12,22,302,7,high"

end FetchFires

namespace Aux

theorem string_eq_of_data {a b : String} (h : a.data = b.data) : a = b := by
  cases a; cases b; simp_all

theorem append_underscore_eq (d t : String) :
    d ++ "_" ++ t = "_" ↔ d = "" ∧ t = "" := by
  constructor
  · intro h
    have hd : (d ++ "_" ++ t).data = ("_" : String).data := by rw [h]
    rw [String.data_append, String.data_append] at hd
    have hl := congrArg List.length hd
    simp at hl
    have h1 : d.length = 0 := by omega
    have h2 : t.length = 0 := by omega
    refine ⟨?_, ?_⟩
    · cases d with
      | mk l =>
        have hll : l = [] := List.length_eq_zero.mp h1
        rw [hll]
    · cases t with
      | mk l =>
        have hll : l = [] := List.length_eq_zero.mp h2
        rw [hll]
  · rintro ⟨rfl, rfl⟩
    rfl

theorem digitsRec_lt {n : Nat} (h : n < 10) : digitsRec n = [Nat.digitChar n] := by
  rw [digitsRec]; simp [h]

theorem digitsRec_ge {n : Nat} (h : ¬ n < 10) :
    digitsRec n = digitsRec (n / 10) ++ [Nat.digitChar (n % 10)] := by
  conv_lhs => rw [digitsRec]
  simp [h]

theorem toDigitsCore_eq_digitsRec :
    ∀ (fuel n : Nat) (ds : List Char), n < fuel →
      Nat.toDigitsCore 10 fuel n ds = digitsRec n ++ ds := by
  intro fuel
  induction fuel with
  | zero => intro n ds h; omega
  | succ f ih =>
    intro n ds h
    by_cases h10 : n < 10
    · have hdiv : n / 10 = 0 := Nat.div_eq_of_lt h10
      have hmod : n % 10 = n := Nat.mod_eq_of_lt h10
      simp [Nat.toDigitsCore, hdiv, digitsRec_lt h10, hmod]
    · have hdiv : n / 10 ≠ 0 := by
        intro hc
        have : 1 ≤ n / 10 := (Nat.le_div_iff_mul_le (by omega)).mpr (by omega)
        omega
      have hlt : n / 10 < f := by
        have : n / 10 < n := Nat.div_lt_self (by omega) (by omega)
        omega
      rw [show Nat.toDigitsCore 10 (f + 1) n ds =
            Nat.toDigitsCore 10 f (n / 10) (Nat.digitChar (n % 10) :: ds) by
            simp [Nat.toDigitsCore, hdiv]]
      rw [ih (n / 10) _ hlt, digitsRec_ge h10]
      simp

theorem repr_eq_digitsRec (n : Nat) : Nat.repr n = (digitsRec n).asString := by
  show (Nat.toDigits 10 n).asString = _
  rw [Nat.toDigits, toDigitsCore_eq_digitsRec (n + 1) n [] (by omega)]
  simp

theorem digitChar_inj_lt :
    ∀ a < 10, ∀ b < 10, Nat.digitChar a = Nat.digitChar b → a = b := by
  decide

theorem digitsRec_length_pos (n : Nat) : 0 < (digitsRec n).length := by
  by_cases h : n < 10
  · simp [digitsRec_lt h]
  · simp [digitsRec_ge h]

theorem digitsRec_inj : ∀ a b : Nat, digitsRec a = digitsRec b → a = b := by
  intro a
  induction a using Nat.strong_induction_on with
  | _ a ih =>
    intro b hab
    by_cases ha : a < 10 <;> by_cases hb : b < 10
    · rw [digitsRec_lt ha, digitsRec_lt hb] at hab
      simp at hab
      exact digitChar_inj_lt a ha b hb hab
    · exfalso
      rw [digitsRec_lt ha, digitsRec_ge hb] at hab
      have hlen := congrArg List.length hab
      simp only [List.length_append, List.length_cons, List.length_nil] at hlen
      have := digitsRec_length_pos (b / 10)
      omega
    · exfalso
      rw [digitsRec_ge ha, digitsRec_lt hb] at hab
      have hlen := congrArg List.length hab
      simp only [List.length_append, List.length_cons, List.length_nil] at hlen
      have := digitsRec_length_pos (a / 10)
      omega
    · rw [digitsRec_ge ha, digitsRec_ge hb] at hab
      have hrev := congrArg List.reverse hab
      simp at hrev
      obtain ⟨hc, hrest⟩ := hrev
      have hmod : a % 10 = b % 10 :=
        digitChar_inj_lt _ (Nat.mod_lt _ (by omega)) _ (Nat.mod_lt _ (by omega)) hc
      have hdiveq : a / 10 = b / 10 :=
        ih (a / 10) (Nat.div_lt_self (by omega) (by omega)) _ hrest
      omega

theorem natRepr_injective : Function.Injective Nat.repr := by
  intro a b h
  rw [repr_eq_digitsRec, repr_eq_digitsRec] at h
  apply digitsRec_inj
  have hdata : (digitsRec a).asString.data = (digitsRec b).asString.data := by rw [h]
  simpa [List.asString] using hdata

end Aux

/-- C2 counterexample: a record whose acquisition date is present but
whose acquisition time is empty does NOT fall back to the
ingest-timestamp key — `store_fire_data` derives the
`lat_long_acqDate_acqTime` form with a trailing underscore, contradicting
the claim that the fallback applies whenever either field is absent or
empty. -/
theorem fire_id_fallback_boundary_cex :
    (ProcessFires.buildRecord "1.0" "2.0" ProcessFires.fireDateOnly
        (ProcessFires.get_location_from_coordinates none)).acq_time = ""
    ∧ (ProcessFires.buildRecord "1.0" "2.0" ProcessFires.fireDateOnly
        (ProcessFires.get_location_from_coordinates none)).acq_date ≠ ""
    ∧ ProcessFires.fire_id_of
        (ProcessFires.buildRecord "1.0" "2.0" ProcessFires.fireDateOnly
          (ProcessFires.get_location_from_coordinates none)) 99
        = "1.0_2.0_2024-01-01_"
    ∧ ProcessFires.fire_id_of
        (ProcessFires.buildRecord "1.0" "2.0" ProcessFires.fireDateOnly
          (ProcessFires.get_location_from_coordinates none)) 99
        ≠ "1.0_2.0_" ++ Nat.repr 99 := by
  refine ⟨rfl, by decide, rfl, by decide⟩

/-- C2 (amended): `store_fire_data` derives `fire_id` as
`lat_long_acqDate_acqTime` whenever the two acquisition fields are not
BOTH empty, and as `lat_long_ingestTimestamp` exactly when both are
empty; in the former case the key is independent of the ingest
timestamp, so deriving it twice from identical input yields an identical
key. -/
theorem fire_id_policy (r : ProcessFires.FireRecord) (ts ts2 : Nat) :
    ProcessFires.fire_id_of r ts =
      (if r.acq_date = "" ∧ r.acq_time = "" then
        r.latitude ++ "_" ++ r.longitude ++ "_" ++ Nat.repr ts
      else
        r.latitude ++ "_" ++ r.longitude ++ "_" ++ (r.acq_date ++ "_" ++ r.acq_time))
    ∧ ProcessFires.fire_id_of r ts2 =
      (if r.acq_date = "" ∧ r.acq_time = "" then
        r.latitude ++ "_" ++ r.longitude ++ "_" ++ Nat.repr ts2
      else ProcessFires.fire_id_of r ts) := by
  by_cases h : r.acq_date = "" ∧ r.acq_time = ""
  · have hu : r.acq_date ++ "_" ++ r.acq_time = "_" :=
      (Aux.append_underscore_eq _ _).mpr h
    constructor
    · simp [ProcessFires.fire_id_of, hu, h]
    · simp [ProcessFires.fire_id_of, hu, h]
  · have hu : ¬ (r.acq_date ++ "_" ++ r.acq_time = "_") := by
      intro hc
      exact h ((Aux.append_underscore_eq _ _).mp hc)
    constructor
    · simp [ProcessFires.fire_id_of, hu, h]
    · simp [ProcessFires.fire_id_of, hu, h]

namespace Aux

theorem fire_id_indep {r : ProcessFires.FireRecord}
    (h : ¬ (r.acq_date = "" ∧ r.acq_time = "")) (ts ts2 : Nat) :
    ProcessFires.fire_id_of r ts = ProcessFires.fire_id_of r ts2 := by
  have hu : ¬ (r.acq_date ++ "_" ++ r.acq_time = "_") := by
    intro hc
    exact h ((append_underscore_eq _ _).mp hc)
  simp [ProcessFires.fire_id_of, hu]

theorem hasKey_iff (s : ProcessFires.Store) (k : String) :
    ProcessFires.hasKey s k = true ↔ k ∈ ProcessFires.keys s := by
  simp [ProcessFires.hasKey, ProcessFires.keys, List.any_eq_true, List.mem_map]

theorem pf_store_shape (fire : ProcessFires.FireInput)
    (geo : Option ProcessFires.GeoResponse) (fault : Option String) (ts : Nat)
    (s : ProcessFires.Store) :
    (ProcessFires.process_fire fire geo fault ts s).1 = s ∨
    ∃ lat lon, fire.latitude = some lat ∧ fire.longitude = some lon ∧ fault = none ∧
      (ProcessFires.hasKey s (ProcessFires.fire_id_of
        (ProcessFires.buildRecord lat lon fire
          (ProcessFires.get_location_from_coordinates geo)) ts) = false ∧
      (ProcessFires.process_fire fire geo fault ts s).1 = s ++
        [(ProcessFires.fire_id_of (ProcessFires.buildRecord lat lon fire
            (ProcessFires.get_location_from_coordinates geo)) ts,
          ProcessFires.mkItem (ProcessFires.buildRecord lat lon fire
            (ProcessFires.get_location_from_coordinates geo)) ts)]) := by
  unfold ProcessFires.process_fire
  cases hla : fire.latitude with
  | none => left; rfl
  | some lat =>
    cases hlo : fire.longitude with
    | none => left; rfl
    | some lon =>
      cases hf : fault with
      | some m => left; rfl
      | none =>
        by_cases hk : ProcessFires.hasKey s (ProcessFires.fire_id_of
            (ProcessFires.buildRecord lat lon fire
              (ProcessFires.get_location_from_coordinates geo)) ts) = true
        · left
          simp [ProcessFires.store_fire_data, ProcessFires.afterStore,
                ProcessFires.mkItem, hk]
        · right
          refine ⟨lat, lon, rfl, rfl, rfl, by simpa using hk, ?_⟩
          simp only [Bool.not_eq_true] at hk
          simp [ProcessFires.store_fire_data, ProcessFires.afterStore,
                ProcessFires.mkItem, hk]

theorem pf_store_mono (fire : ProcessFires.FireInput)
    (geo : Option ProcessFires.GeoResponse) (fault : Option String) (ts : Nat)
    (s : ProcessFires.Store) {kv : String × ProcessFires.Item} (h : kv ∈ s) :
    kv ∈ (ProcessFires.process_fire fire geo fault ts s).1 := by
  rcases pf_store_shape fire geo fault ts s with he | ⟨lat, lon, _, _, _, _, he⟩
  · rw [he]; exact h
  · rw [he]; exact List.mem_append_left _ h

theorem pf_keys_mono (fire : ProcessFires.FireInput)
    (geo : Option ProcessFires.GeoResponse) (fault : Option String) (ts : Nat)
    (s : ProcessFires.Store) {k : String} (h : k ∈ ProcessFires.keys s) :
    k ∈ ProcessFires.keys (ProcessFires.process_fire fire geo fault ts s).1 := by
  simp only [ProcessFires.keys, List.mem_map] at h ⊢
  obtain ⟨p, hp, he⟩ := h
  exact ⟨p, pf_store_mono fire geo fault ts s hp, he⟩

theorem pf_covers (fire : ProcessFires.FireInput)
    (geo : Option ProcessFires.GeoResponse) (ts : Nat) (s : ProcessFires.Store)
    (lat lon : String) (hla : fire.latitude = some lat)
    (hlo : fire.longitude = some lon) :
    ProcessFires.fire_id_of (ProcessFires.buildRecord lat lon fire
        (ProcessFires.get_location_from_coordinates geo)) ts
      ∈ ProcessFires.keys (ProcessFires.process_fire fire geo none ts s).1 := by
  unfold ProcessFires.process_fire
  rw [hla, hlo]
  by_cases hk : ProcessFires.hasKey s (ProcessFires.fire_id_of
      (ProcessFires.buildRecord lat lon fire
        (ProcessFires.get_location_from_coordinates geo)) ts) = true
  · have hmem := (hasKey_iff s _).mp hk
    simp [ProcessFires.store_fire_data, ProcessFires.afterStore,
          ProcessFires.mkItem, hk, hmem]
  · simp only [Bool.not_eq_true] at hk
    simp [ProcessFires.store_fire_data, ProcessFires.afterStore, hk,
          ProcessFires.keys, ProcessFires.mkItem]

theorem pf_noop (fire : ProcessFires.FireInput)
    (geo : Option ProcessFires.GeoResponse) (fault : Option String) (ts : Nat)
    (s : ProcessFires.Store)
    (hc : ∀ lat lon, fire.latitude = some lat → fire.longitude = some lon →
      ProcessFires.fire_id_of (ProcessFires.buildRecord lat lon fire
        (ProcessFires.get_location_from_coordinates geo)) ts
        ∈ ProcessFires.keys s) :
    (ProcessFires.process_fire fire geo fault ts s).1 = s := by
  unfold ProcessFires.process_fire
  cases hla : fire.latitude with
  | none => rfl
  | some lat =>
    cases hlo : fire.longitude with
    | none => rfl
    | some lon =>
      cases fault with
      | some m => rfl
      | none =>
        have hk : ProcessFires.hasKey s (ProcessFires.fire_id_of
            (ProcessFires.buildRecord lat lon fire
              (ProcessFires.get_location_from_coordinates geo)) ts) = true :=
          (hasKey_iff s _).mpr (hc lat lon hla hlo)
        simp [ProcessFires.store_fire_data, ProcessFires.afterStore,
              ProcessFires.mkItem, hk]

theorem pf_keys_nodup (fire : ProcessFires.FireInput)
    (geo : Option ProcessFires.GeoResponse) (fault : Option String) (ts : Nat)
    (s : ProcessFires.Store) (h : (ProcessFires.keys s).Nodup) :
    (ProcessFires.keys (ProcessFires.process_fire fire geo fault ts s).1).Nodup := by
  rcases pf_store_shape fire geo fault ts s with he | ⟨lat, lon, _, _, _, hk, he⟩
  · rw [he]; exact h
  · rw [he]
    have hkm : ProcessFires.fire_id_of (ProcessFires.buildRecord lat lon fire
        (ProcessFires.get_location_from_coordinates geo)) ts
        ∉ ProcessFires.keys s := by
      intro hmem
      have := (hasKey_iff s _).mpr hmem
      rw [hk] at this
      exact Bool.false_ne_true this
    have hsplit : ProcessFires.keys (s ++
        [(ProcessFires.fire_id_of (ProcessFires.buildRecord lat lon fire
            (ProcessFires.get_location_from_coordinates geo)) ts,
          ProcessFires.mkItem (ProcessFires.buildRecord lat lon fire
            (ProcessFires.get_location_from_coordinates geo)) ts)]) =
        ProcessFires.keys s ++
        [ProcessFires.fire_id_of (ProcessFires.buildRecord lat lon fire
            (ProcessFires.get_location_from_coordinates geo)) ts] := by
      simp [ProcessFires.keys]
    rw [hsplit, List.nodup_append]
    refine ⟨h, List.nodup_singleton _, ?_⟩
    intro x hx hx2
    simp at hx2
    rw [hx2] at hx
    exact hkm hx

end Aux

namespace Aux

theorem stepFire_store (ts : Nat) (h : ProcessFires.HState) (c : ProcessFires.FireCase) :
    (ProcessFires.stepFire ts h c).store =
      (ProcessFires.process_fire c.fire c.geo c.fault ts h.store).1 := by
  unfold ProcessFires.stepFire
  split <;> simp_all

theorem foldl_store_mono (ts : Nat) :
    ∀ (chunk : List ProcessFires.FireCase) (h : ProcessFires.HState)
      {kv : String × ProcessFires.Item}, kv ∈ h.store →
      kv ∈ (chunk.foldl (ProcessFires.stepFire ts) h).store := by
  intro chunk
  induction chunk with
  | nil => intro h kv hkv; exact hkv
  | cons c rest ih =>
    intro h kv hkv
    rw [List.foldl_cons]
    apply ih
    rw [stepFire_store]
    exact pf_store_mono _ _ _ _ _ hkv

theorem foldl_keys_mono (ts : Nat) :
    ∀ (chunk : List ProcessFires.FireCase) (h : ProcessFires.HState) {k : String},
      k ∈ ProcessFires.keys h.store →
      k ∈ ProcessFires.keys (chunk.foldl (ProcessFires.stepFire ts) h).store := by
  intro chunk
  induction chunk with
  | nil => intro h k hk; exact hk
  | cons c rest ih =>
    intro h k hk
    rw [List.foldl_cons]
    apply ih
    rw [stepFire_store]
    exact pf_keys_mono _ _ _ _ _ hk

theorem foldl_covers (ts : Nat) :
    ∀ (chunk : List ProcessFires.FireCase) (h : ProcessFires.HState),
      (∀ c ∈ chunk, c.fault = none) →
      ∀ c ∈ chunk, ∀ lat lon, c.fire.latitude = some lat →
        c.fire.longitude = some lon →
        ProcessFires.fire_id_of (ProcessFires.buildRecord lat lon c.fire
            (ProcessFires.get_location_from_coordinates c.geo)) ts
          ∈ ProcessFires.keys (chunk.foldl (ProcessFires.stepFire ts) h).store := by
  intro chunk
  induction chunk with
  | nil => intro h _ c hc; cases hc
  | cons c0 rest ih =>
    intro h hf c hc lat lon hla hlo
    rw [List.foldl_cons]
    cases hc with
    | head =>
      apply foldl_keys_mono
      rw [stepFire_store]
      have hf0 : c0.fault = none := hf c0 (List.mem_cons_self _ _)
      rw [hf0]
      exact pf_covers c0.fire c0.geo ts h.store lat lon hla hlo
    | tail _ hmem =>
      exact ih (ProcessFires.stepFire ts h c0)
        (fun d hd => hf d (List.mem_cons_of_mem _ hd)) c hmem lat lon hla hlo

theorem foldl_absorb (ts : Nat) :
    ∀ (chunk : List ProcessFires.FireCase) (h : ProcessFires.HState),
      (∀ c ∈ chunk, ∀ lat lon, c.fire.latitude = some lat →
        c.fire.longitude = some lon →
        ProcessFires.fire_id_of (ProcessFires.buildRecord lat lon c.fire
            (ProcessFires.get_location_from_coordinates c.geo)) ts
          ∈ ProcessFires.keys h.store) →
      (chunk.foldl (ProcessFires.stepFire ts) h).store = h.store := by
  intro chunk
  induction chunk with
  | nil => intro h _; rfl
  | cons c0 rest ih =>
    intro h hcov
    rw [List.foldl_cons]
    have hstep : (ProcessFires.stepFire ts h c0).store = h.store := by
      rw [stepFire_store]
      exact pf_noop _ _ _ _ _ (hcov c0 (List.mem_cons_self _ _))
    have := ih (ProcessFires.stepFire ts h c0) (by
      intro c hc lat lon hla hlo
      rw [hstep]
      exact hcov c (List.mem_cons_of_mem _ hc) lat lon hla hlo)
    rw [this, hstep]

theorem foldl_nodup (ts : Nat) :
    ∀ (chunk : List ProcessFires.FireCase) (h : ProcessFires.HState),
      (ProcessFires.keys h.store).Nodup →
      (ProcessFires.keys (chunk.foldl (ProcessFires.stepFire ts) h).store).Nodup := by
  intro chunk
  induction chunk with
  | nil => intro h hn; exact hn
  | cons c0 rest ih =>
    intro h hn
    rw [List.foldl_cons]
    apply ih
    rw [stepFire_store]
    exact pf_keys_nodup _ _ _ _ _ hn

theorem handler_store (chunk : List ProcessFires.FireCase) (ts : Nat)
    (store : ProcessFires.Store) :
    (ProcessFires.lambda_handler [.message chunk] ts store).1 =
      (chunk.foldl (ProcessFires.stepFire ts) ⟨store, 0, 0, []⟩).store := rfl

end Aux

/-- C1 (amended): for every chunk whose detections all carry a
non-degenerate acquisition key (date and time not both empty) and whose
store writes raise no environment fault, reprocessing the chunk leaves
the store exactly as one processing pass left it, the store keeps at most
one record per `fire_id`, and records present before the pass survive it
unchanged.  (The fallback ingest-timestamp key of acquisition-less
records breaks this for redeliveries at a different clock second — see
the counterexample.) -/
theorem idempotent_redelivery_with_acq (chunk : List ProcessFires.FireCase)
    (store : ProcessFires.Store) (ts1 ts2 : Nat)
    (hfault : ∀ c ∈ chunk, c.fault = none)
    (hacq : ∀ c ∈ chunk, ¬ ProcessFires.acqBothEmpty c.fire) :
    (ProcessFires.lambda_handler [.message chunk] ts2
        (ProcessFires.lambda_handler [.message chunk] ts1 store).1).1
      = (ProcessFires.lambda_handler [.message chunk] ts1 store).1
    ∧ ((ProcessFires.keys store).Nodup →
        (ProcessFires.keys
          (ProcessFires.lambda_handler [.message chunk] ts1 store).1).Nodup)
    ∧ ∀ kv ∈ store, kv ∈ (ProcessFires.lambda_handler [.message chunk] ts1 store).1 := by
  rw [Aux.handler_store, Aux.handler_store]
  refine ⟨?_, fun hn => Aux.foldl_nodup ts1 chunk _ hn, fun kv hkv =>
    Aux.foldl_store_mono ts1 chunk _ hkv⟩
  apply Aux.foldl_absorb
  intro c hc lat lon hla hlo
  have hid : ProcessFires.fire_id_of (ProcessFires.buildRecord lat lon c.fire
      (ProcessFires.get_location_from_coordinates c.geo)) ts2 =
      ProcessFires.fire_id_of (ProcessFires.buildRecord lat lon c.fire
        (ProcessFires.get_location_from_coordinates c.geo)) ts1 := by
    apply Aux.fire_id_indep
    intro hboth
    exact hacq c hc ⟨hboth.1, hboth.2⟩
  rw [hid]
  exact Aux.foldl_covers ts1 chunk _ hfault c hc lat lon hla hlo

/-- C1 witness: a one-detection chunk with full acquisition data,
processed at tick 5 and redelivered at tick 9. -/
theorem idempotent_redelivery_with_acq_witness :
    (∀ c ∈ [({ fire := ProcessFires.fireA, geo := none, fault := none } :
        ProcessFires.FireCase)], c.fault = none)
    ∧ (∀ c ∈ [({ fire := ProcessFires.fireA, geo := none, fault := none } :
        ProcessFires.FireCase)], ¬ ProcessFires.acqBothEmpty c.fire)
    ∧ ((ProcessFires.lambda_handler
          [.message [{ fire := ProcessFires.fireA, geo := none, fault := none }]] 9
          (ProcessFires.lambda_handler
            [.message [{ fire := ProcessFires.fireA, geo := none, fault := none }]] 5 []).1).1
        = (ProcessFires.lambda_handler
            [.message [{ fire := ProcessFires.fireA, geo := none, fault := none }]] 5 []).1
      ∧ ((ProcessFires.keys ([] : ProcessFires.Store)).Nodup →
          (ProcessFires.keys (ProcessFires.lambda_handler
            [.message [{ fire := ProcessFires.fireA, geo := none, fault := none }]] 5 []).1).Nodup)
      ∧ ∀ kv ∈ ([] : ProcessFires.Store), kv ∈ (ProcessFires.lambda_handler
          [.message [{ fire := ProcessFires.fireA, geo := none, fault := none }]] 5 []).1) :=
  ⟨by decide, by decide,
   idempotent_redelivery_with_acq
     [{ fire := ProcessFires.fireA, geo := none, fault := none }] [] 5 9
     (by decide) (by decide)⟩

/-- C1 counterexample: a detection without acquisition data takes the
ingest-timestamp fallback key, so delivering the same chunk at clock
ticks 1 and 2 leaves two records in the store where a single processing
pass leaves one — the final state after reprocessing differs from the
state after processing once. -/
theorem fallback_redelivery_not_idempotent :
    (ProcessFires.lambda_handler [.message ProcessFires.chunkNoAcq] 2
        (ProcessFires.lambda_handler [.message ProcessFires.chunkNoAcq] 1 []).1).1
      ≠ (ProcessFires.lambda_handler [.message ProcessFires.chunkNoAcq] 1 []).1
    ∧ ((ProcessFires.lambda_handler [.message ProcessFires.chunkNoAcq] 1 []).1).length = 1
    ∧ ((ProcessFires.lambda_handler [.message ProcessFires.chunkNoAcq] 2
        (ProcessFires.lambda_handler [.message ProcessFires.chunkNoAcq] 1 []).1).1).length = 2 := by
  refine ⟨by decide, rfl, rfl⟩

/-- C3 evaluation at the failing input: a delivery carrying the same
detection twice raises no error and records no error entry (the claim is
right there), but the handler counts the duplicate skip as stored —
`stored = 2` while the store holds a single record, because
`process_fire` returns `True` after a duplicate-condition skip. -/
theorem duplicate_counted_as_stored :
    (ProcessFires.lambda_handler ProcessFires.duplicateDelivery 7 []).2 =
      { statusCode := 200, processed := 2, stored := 2, errors := 0,
        error_details := [] }
    ∧ ((ProcessFires.lambda_handler ProcessFires.duplicateDelivery 7 []).1).length = 1 := by
  exact ⟨rfl, rfl⟩

/-- C8 evaluation at the failing input: a delivery with a duplicated
detection, one non-duplicate store failure and one detection without
coordinates yields `processed = 3`, `errors = 1` (the failing record does
not abort its siblings), exactly one error-detail entry, status 207 —
but `stored = 2` although only one record was written to the store. -/
theorem partial_success_report_eval :
    (ProcessFires.lambda_handler ProcessFires.mixedDelivery 7 []).2 =
      { statusCode := 207, processed := 3, stored := 2, errors := 1,
        error_details := [.fireErr ProcessFires.fireB "InternalServerError"] }
    ∧ ((ProcessFires.lambda_handler ProcessFires.mixedDelivery 7 []).1).length = 1 := by
  exact ⟨rfl, rfl⟩

/-- C5: when the reverse-geocode lookup fails (its single failure branch,
covering timeout, non-2xx and malformed responses), the enriched record
carries the sentinel `"Unknown"` in all four location fields, and
`process_fire` still hands exactly that record to the store write — the
outcome of the call is the outcome of `store_fire_data`, never a drop. -/
theorem geocode_failure_unknown_and_stored
    (fire : ProcessFires.FireInput) (lat lon : String)
    (fault : Option String) (ts : Nat) (store : ProcessFires.Store)
    (hla : fire.latitude = some lat) (hlo : fire.longitude = some lon) :
    (ProcessFires.buildRecord lat lon fire
      (ProcessFires.get_location_from_coordinates none)).location_city = "Unknown"
    ∧ (ProcessFires.buildRecord lat lon fire
      (ProcessFires.get_location_from_coordinates none)).location_locality = "Unknown"
    ∧ (ProcessFires.buildRecord lat lon fire
      (ProcessFires.get_location_from_coordinates none)).location_country = "Unknown"
    ∧ (ProcessFires.buildRecord lat lon fire
      (ProcessFires.get_location_from_coordinates none)).location_state = "Unknown"
    ∧ ProcessFires.process_fire fire none fault ts store =
        ProcessFires.afterStore (ProcessFires.store_fire_data fault store
          (ProcessFires.buildRecord lat lon fire
            (ProcessFires.get_location_from_coordinates none)) ts) := by
  refine ⟨rfl, rfl, rfl, rfl, ?_⟩
  unfold ProcessFires.process_fire
  rw [hla, hlo]

/-- C5 witness: the coordinates-only detection with a failed lookup. -/
theorem geocode_failure_unknown_and_stored_witness :
    ProcessFires.fireNoAcq.latitude = some "1.0"
    ∧ ProcessFires.fireNoAcq.longitude = some "2.0"
    ∧ ((ProcessFires.buildRecord "1.0" "2.0" ProcessFires.fireNoAcq
        (ProcessFires.get_location_from_coordinates none)).location_city = "Unknown"
      ∧ (ProcessFires.buildRecord "1.0" "2.0" ProcessFires.fireNoAcq
        (ProcessFires.get_location_from_coordinates none)).location_locality = "Unknown"
      ∧ (ProcessFires.buildRecord "1.0" "2.0" ProcessFires.fireNoAcq
        (ProcessFires.get_location_from_coordinates none)).location_country = "Unknown"
      ∧ (ProcessFires.buildRecord "1.0" "2.0" ProcessFires.fireNoAcq
        (ProcessFires.get_location_from_coordinates none)).location_state = "Unknown"
      ∧ ProcessFires.process_fire ProcessFires.fireNoAcq none none 3 [] =
          ProcessFires.afterStore (ProcessFires.store_fire_data none []
            (ProcessFires.buildRecord "1.0" "2.0" ProcessFires.fireNoAcq
              (ProcessFires.get_location_from_coordinates none)) 3)) :=
  ⟨rfl, rfl,
   geocode_failure_unknown_and_stored ProcessFires.fireNoAcq "1.0" "2.0" none 3 [] rfl rfl⟩

namespace Aux

theorem classify_ok :
    ∀ (events : List StreamProcessor.StreamRecord),
      (∀ r ∈ events, StreamProcessor.wellFormed r) →
      StreamProcessor.classify events =
        .ok (StreamProcessor.insertsOf events, StreamProcessor.modifiesOf events,
             StreamProcessor.removesOf events) := by
  intro events
  induction events with
  | nil => intro _; rfl
  | cons r rest ih =>
    intro hwf
    have hr := hwf r (List.mem_cons_self _ _)
    have hrest := ih (fun d hd => hwf d (List.mem_cons_of_mem _ hd))
    by_cases hi : r.eventName = "INSERT"
    · obtain ⟨img, himg⟩ := Option.isSome_iff_exists.mp (hr.1 hi)
      simp [StreamProcessor.classify, StreamProcessor.insertsOf,
            StreamProcessor.modifiesOf, StreamProcessor.removesOf,
            hi, himg, hrest, List.filterMap_cons]
      rfl
    · by_cases hm : r.eventName = "MODIFY"
      · obtain ⟨img, himg⟩ := Option.isSome_iff_exists.mp (hr.2.1 hm)
        simp [StreamProcessor.classify, StreamProcessor.insertsOf,
              StreamProcessor.modifiesOf, StreamProcessor.removesOf,
              hi, hm, himg, hrest, List.filterMap_cons]
        rfl
      · by_cases hd : r.eventName = "REMOVE"
        · obtain ⟨img, himg⟩ := Option.isSome_iff_exists.mp (hr.2.2 hd)
          simp [StreamProcessor.classify, StreamProcessor.insertsOf,
                StreamProcessor.modifiesOf, StreamProcessor.removesOf,
                hi, hm, hd, himg, hrest, List.filterMap_cons]
          rfl
        · simp [StreamProcessor.classify, StreamProcessor.insertsOf,
                StreamProcessor.modifiesOf, StreamProcessor.removesOf,
                hi, hm, hd, hrest, List.filterMap_cons]

theorem insertsOf_nil_of_no_insert
    (events : List StreamProcessor.StreamRecord)
    (h : ∀ r ∈ events, r.eventName ≠ "INSERT") :
    StreamProcessor.insertsOf events = [] := by
  induction events with
  | nil => rfl
  | cons r rest ih =>
    have hr := h r (List.mem_cons_self _ _)
    simp [StreamProcessor.insertsOf, List.filterMap_cons, hr]
    simpa [StreamProcessor.insertsOf] using ih (fun d hd => h d (List.mem_cons_of_mem _ hd))

theorem modifiesOf_length
    (events : List StreamProcessor.StreamRecord)
    (h : ∀ r ∈ events, r.eventName = "MODIFY" → r.newImage.isSome = true) :
    (StreamProcessor.modifiesOf events).length =
      (events.filter (fun r => r.eventName == "MODIFY")).length := by
  induction events with
  | nil => rfl
  | cons r rest ih =>
    have hrest := ih (fun d hd => h d (List.mem_cons_of_mem _ hd))
    by_cases hm : r.eventName = "MODIFY"
    · obtain ⟨img, himg⟩ :=
        Option.isSome_iff_exists.mp (h r (List.mem_cons_self _ _) hm)
      simp [StreamProcessor.modifiesOf, List.filterMap_cons, hm, himg,
            List.filter_cons] at hrest ⊢
      exact hrest
    · simp [StreamProcessor.modifiesOf, List.filterMap_cons, hm,
            List.filter_cons] at hrest ⊢
      exact hrest

theorem removesOf_length
    (events : List StreamProcessor.StreamRecord)
    (h : ∀ r ∈ events, r.eventName = "REMOVE" → r.oldImage.isSome = true) :
    (StreamProcessor.removesOf events).length =
      (events.filter (fun r => r.eventName == "REMOVE")).length := by
  induction events with
  | nil => rfl
  | cons r rest ih =>
    have hrest := ih (fun d hd => h d (List.mem_cons_of_mem _ hd))
    by_cases hm : r.eventName = "REMOVE"
    · obtain ⟨img, himg⟩ :=
        Option.isSome_iff_exists.mp (h r (List.mem_cons_self _ _) hm)
      simp [StreamProcessor.removesOf, List.filterMap_cons, hm, himg,
            List.filter_cons] at hrest ⊢
      exact hrest
    · simp [StreamProcessor.removesOf, List.filterMap_cons, hm,
            List.filter_cons] at hrest ⊢
      exact hrest

end Aux

/-- C9: a stream delivery carrying only MODIFY and REMOVE events (each
with its image) performs zero publish calls and returns the 200 success
body in which the MODIFY and REMOVE events are counted and the INSERT
count is zero. -/
theorem no_publish_without_inserts (events : List StreamProcessor.StreamRecord)
    (publishOk : Bool)
    (h : ∀ r ∈ events, (r.eventName = "MODIFY" ∧ r.newImage.isSome = true)
        ∨ (r.eventName = "REMOVE" ∧ r.oldImage.isSome = true)) :
    StreamProcessor.lambda_handler events publishOk =
      (Except.ok (.success 0
          (events.filter (fun r => r.eventName == "MODIFY")).length
          (events.filter (fun r => r.eventName == "REMOVE")).length),
       []) := by
  have hwf : ∀ r ∈ events, StreamProcessor.wellFormed r := by
    intro r hr
    rcases h r hr with ⟨hn, hs⟩ | ⟨hn, hs⟩ <;>
      exact ⟨fun hc => by simp [hn] at hc, fun hc => by simp_all [hn], fun hc => by simp_all [hn]⟩
  have hnil : StreamProcessor.insertsOf events = [] := by
    apply Aux.insertsOf_nil_of_no_insert
    intro r hr
    rcases h r hr with ⟨hn, _⟩ | ⟨hn, _⟩ <;> simp [hn]
  have hm := Aux.modifiesOf_length events (by
    intro r hr _
    rcases h r hr with ⟨_, hs⟩ | ⟨hn, _⟩
    · exact hs
    · simp_all)
  have hd := Aux.removesOf_length events (by
    intro r hr _
    rcases h r hr with ⟨hn, _⟩ | ⟨_, hs⟩
    · simp_all
    · exact hs)
  unfold StreamProcessor.lambda_handler
  rw [Aux.classify_ok events hwf, hnil]
  simp [hm, hd]

/-- C9 witness: a delivery of one MODIFY and one REMOVE record. -/
theorem no_publish_without_inserts_witness :
    (∀ r ∈ StreamProcessor.modifyRemoveDelivery,
      (r.eventName = "MODIFY" ∧ r.newImage.isSome = true)
        ∨ (r.eventName = "REMOVE" ∧ r.oldImage.isSome = true))
    ∧ StreamProcessor.lambda_handler StreamProcessor.modifyRemoveDelivery true =
        (Except.ok (.success 0
            (StreamProcessor.modifyRemoveDelivery.filter
              (fun r => r.eventName == "MODIFY")).length
            (StreamProcessor.modifyRemoveDelivery.filter
              (fun r => r.eventName == "REMOVE")).length),
         []) :=
  ⟨by decide, no_publish_without_inserts StreamProcessor.modifyRemoveDelivery true (by decide)⟩

/-- C4 counterexample: a delivery with one INSERT whose publish fails —
the handler invocation completes normally (`isOk`) with the 500 error
body after one attempted publish call, instead of erroring so that the
delivery would be redelivered. -/
theorem publish_failure_swallowed_cex :
    (StreamProcessor.lambda_handler StreamProcessor.oneInsertDelivery false).1.isOk = true
    ∧ (StreamProcessor.lambda_handler StreamProcessor.oneInsertDelivery false).1 =
        Except.ok (.failure "publish error")
    ∧ ((StreamProcessor.lambda_handler StreamProcessor.oneInsertDelivery false).2).length = 1 := by
  exact ⟨rfl, rfl, rfl⟩

/-- C4 (amended): for every well-formed delivery with at least one INSERT
whose publish fails, `send_fire_alerts` raises, and the handler catches
the error and returns normally with the 500 error body after exactly one
attempted publish call — the failure does not propagate out of the
invocation and triggers no redelivery. -/
theorem publish_failure_caught_returns_500
    (events : List StreamProcessor.StreamRecord)
    (hwf : ∀ r ∈ events, StreamProcessor.wellFormed r)
    (hins : ∃ r ∈ events, r.eventName = "INSERT") :
    (StreamProcessor.send_fire_alerts false (StreamProcessor.insertsOf events)).2 =
        Except.error "publish error"
    ∧ (StreamProcessor.lambda_handler events false).1 =
        Except.ok (.failure "publish error")
    ∧ StreamProcessor.StreamResponse.statusCode (.failure "publish error") = 500
    ∧ ((StreamProcessor.lambda_handler events false).2).length = 1 := by
  obtain ⟨r, hr, hname⟩ := hins
  have himg := (hwf r hr).1 hname
  obtain ⟨img, himg⟩ := Option.isSome_iff_exists.mp himg
  have hmem : StreamProcessor.parse_dynamodb_item img ∈ StreamProcessor.insertsOf events := by
    simp only [StreamProcessor.insertsOf, List.mem_filterMap]
    exact ⟨r, hr, by simp [hname, himg]⟩
  have hne : StreamProcessor.insertsOf events ≠ [] := List.ne_nil_of_mem hmem
  refine ⟨rfl, ?_, rfl, ?_⟩ <;>
  · unfold StreamProcessor.lambda_handler
    rw [Aux.classify_ok events hwf]
    simp [StreamProcessor.send_fire_alerts, List.isEmpty_iff, hne]

/-- C4 witness: the single-INSERT delivery with a failing publish. -/
theorem publish_failure_caught_returns_500_witness :
    (∀ r ∈ StreamProcessor.oneInsertDelivery, StreamProcessor.wellFormed r)
    ∧ (∃ r ∈ StreamProcessor.oneInsertDelivery, r.eventName = "INSERT")
    ∧ ((StreamProcessor.send_fire_alerts false
          (StreamProcessor.insertsOf StreamProcessor.oneInsertDelivery)).2 =
        Except.error "publish error"
      ∧ (StreamProcessor.lambda_handler StreamProcessor.oneInsertDelivery false).1 =
          Except.ok (.failure "publish error")
      ∧ StreamProcessor.StreamResponse.statusCode (.failure "publish error") = 500
      ∧ ((StreamProcessor.lambda_handler StreamProcessor.oneInsertDelivery false).2).length = 1) :=
  ⟨by decide, by decide,
   publish_failure_caught_returns_500 StreamProcessor.oneInsertDelivery (by decide) (by decide)⟩

namespace Aux

theorem addFire_fst (acc : List (String × List StreamProcessor.StreamFire))
    (f : StreamProcessor.StreamFire) :
    (StreamProcessor.addFire acc f).map Prod.fst =
      if acc.any (fun p => p.1 == f.location_country) then acc.map Prod.fst
      else acc.map Prod.fst ++ [f.location_country] := by
  unfold StreamProcessor.addFire
  by_cases hany : acc.any (fun p => p.1 == f.location_country) = true
  · simp only [hany, if_true, List.map_map]
    apply List.map_congr_left
    intro p _
    by_cases hp : p.1 = f.location_country
    · simp [hp]
    · simp [hp]
  · simp only [Bool.not_eq_true] at hany
    simp [hany]

theorem addFire_keys_sub (acc : List (String × List StreamProcessor.StreamFire))
    (f : StreamProcessor.StreamFire) (k : String)
    (h : k ∈ acc.map Prod.fst) : k ∈ (StreamProcessor.addFire acc f).map Prod.fst := by
  rw [addFire_fst]
  by_cases hany : acc.any (fun p => p.1 == f.location_country) = true
  · rw [if_pos hany]; exact h
  · rw [if_neg hany]; exact List.mem_append_left _ h

theorem addFire_key_new (acc : List (String × List StreamProcessor.StreamFire))
    (f : StreamProcessor.StreamFire) :
    f.location_country ∈ (StreamProcessor.addFire acc f).map Prod.fst := by
  rw [addFire_fst]
  by_cases hany : acc.any (fun p => p.1 == f.location_country) = true
  · rw [if_pos hany]
    obtain ⟨p, hp, hb⟩ := List.any_eq_true.mp hany
    exact List.mem_map.mpr ⟨p, hp, beq_iff_eq.mp hb⟩
  · rw [if_neg hany]
    simp

theorem fbc_invariant :
    ∀ (fires : List StreamProcessor.StreamFire)
      (acc : List (String × List StreamProcessor.StreamFire))
      (seen : List StreamProcessor.StreamFire),
      (∀ p ∈ acc, p.2 = seen.filter (fun f => f.location_country == p.1)) →
      (∀ f ∈ seen, ∃ p ∈ acc, p.1 = f.location_country) →
      ∀ p ∈ fires.foldl StreamProcessor.addFire acc,
        p.2 = (seen ++ fires).filter (fun f => f.location_country == p.1) := by
  intro fires
  induction fires with
  | nil =>
    intro acc seen h1 _ p hp
    simpa using h1 p hp
  | cons f rest ih =>
    intro acc seen h1 h2 p hp
    rw [List.foldl_cons] at hp
    have key : ∀ q ∈ StreamProcessor.addFire acc f,
        q.2 = (seen ++ [f]).filter (fun g => g.location_country == q.1) := by
      intro q hq
      unfold StreamProcessor.addFire at hq
      by_cases hany : acc.any (fun p => p.1 == f.location_country) = true
      · rw [if_pos hany] at hq
        obtain ⟨q0, hq0, hqe⟩ := List.mem_map.mp hq
        by_cases hk : q0.1 = f.location_country
        · simp only [hk, beq_self_eq_true, if_true] at hqe
          rw [← hqe]
          simp only [List.filter_append]
          have h1q := h1 q0 hq0
          rw [hk] at h1q
          rw [← h1q]
          simp
        · have hb0 : (q0.1 == f.location_country) = false :=
            beq_eq_false_iff_ne.mpr hk
          simp only [hb0, Bool.false_eq_true, if_false] at hqe
          rw [← hqe]
          simp only [List.filter_append]
          rw [← h1 q0 hq0]
          have hb : (f.location_country == q0.1) = false :=
            beq_eq_false_iff_ne.mpr (fun hc => hk hc.symm)
          simp [hb]
      · rw [if_neg hany] at hq
        simp only [Bool.not_eq_true, List.any_eq_false] at hany
        rcases List.mem_append.mp hq with hin | hnew
        · simp only [List.filter_append]
          rw [← h1 q hin]
          have hne := hany q hin
          have hb : (f.location_country == q.1) = false := by
            apply beq_eq_false_iff_ne.mpr
            intro hc
            rw [← hc] at hne
            simp at hne
          simp [hb]
        · simp only [List.mem_singleton] at hnew
          rw [hnew]
          simp only [List.filter_append]
          have hseen : seen.filter
              (fun g => g.location_country == f.location_country) = [] := by
            rw [List.filter_eq_nil_iff]
            intro g hg hc
            obtain ⟨p0, hp0, hpe⟩ := h2 g hg
            have hne := hany p0 hp0
            rw [hpe, beq_iff_eq.mp hc] at hne
            simp at hne
          simp [hseen]
    have key2 : ∀ g ∈ seen ++ [f], ∃ q ∈ StreamProcessor.addFire acc f,
        q.1 = g.location_country := by
      intro g hg
      rcases List.mem_append.mp hg with hin | hf
      · obtain ⟨p0, hp0, hpe⟩ := h2 g hin
        have hk : g.location_country ∈ (StreamProcessor.addFire acc f).map Prod.fst :=
          addFire_keys_sub acc f _ (List.mem_map.mpr ⟨p0, hp0, hpe⟩)
        obtain ⟨q, hq, hqe⟩ := List.mem_map.mp hk
        exact ⟨q, hq, hqe⟩
      · have hgf : g = f := by simpa using hf
        obtain ⟨q, hq, hqe⟩ := List.mem_map.mp (addFire_key_new acc f)
        exact ⟨q, hq, by rw [hqe, hgf]⟩
    have hres := ih (StreamProcessor.addFire acc f) (seen ++ [f]) key key2 p hp
    rw [hres]
    simp

end Aux

namespace Aux

theorem fbc_filter (fires : List StreamProcessor.StreamFire) :
    ∀ p ∈ StreamProcessor.fires_by_country fires,
      p.2 = fires.filter (fun f => f.location_country == p.1) := by
  intro p hp
  have := fbc_invariant fires [] [] (by intro q hq; cases hq) (by intro g hg; cases hg)
    p (by simpa [StreamProcessor.fires_by_country] using hp)
  simpa using this

theorem groups_filter (fires : List StreamProcessor.StreamFire) :
    ∀ p ∈ StreamProcessor.sorted_groups fires,
      p.2 = fires.filter (fun f => f.location_country == p.1) := by
  intro p hp
  apply fbc_filter
  exact (List.mem_insertionSort StreamProcessor.keyLE).mp hp

theorem groups_sorted (fires : List StreamProcessor.StreamFire) :
    List.Sorted (fun a b => a ≤ b)
      ((StreamProcessor.sorted_groups fires).map Prod.fst) := by
  have hs : List.Sorted StreamProcessor.keyLE (StreamProcessor.sorted_groups fires) :=
    List.sorted_insertionSort StreamProcessor.keyLE _
  exact List.pairwise_map.mpr hs

theorem detailFires_pairs (l : List StreamProcessor.StreamFire) :
    StreamProcessor.detailFires
      (l.flatMap (fun f => [.detailLoc f, .detailConf f])) = l := by
  induction l with
  | nil => rfl
  | cons f rest ih =>
    simp only [List.flatMap_cons]
    simp [StreamProcessor.detailFires, List.filterMap_append, List.filterMap_cons]
    simpa [StreamProcessor.detailFires] using ih

theorem overflowOf_pairs (l : List StreamProcessor.StreamFire) :
    StreamProcessor.overflowOf
      (l.flatMap (fun f => [.detailLoc f, .detailConf f])) = [] := by
  induction l with
  | nil => rfl
  | cons f rest ih =>
    simp only [List.flatMap_cons]
    simp [StreamProcessor.overflowOf, List.filter_append, List.filter_cons]
    simpa [StreamProcessor.overflowOf] using ih

theorem detailFires_append (a b : List StreamProcessor.MsgLine) :
    StreamProcessor.detailFires (a ++ b) =
      StreamProcessor.detailFires a ++ StreamProcessor.detailFires b := by
  simp [StreamProcessor.detailFires, List.filterMap_append]

theorem overflowOf_append (a b : List StreamProcessor.MsgLine) :
    StreamProcessor.overflowOf (a ++ b) =
      StreamProcessor.overflowOf a ++ StreamProcessor.overflowOf b := by
  simp [StreamProcessor.overflowOf, List.filter_append]

theorem countryBlock_details (p : String × List StreamProcessor.StreamFire) :
    StreamProcessor.detailFires (StreamProcessor.countryBlock p) = p.2.take 5 := by
  unfold StreamProcessor.countryBlock
  rw [detailFires_append, detailFires_append, detailFires_pairs]
  have h1 : StreamProcessor.detailFires
      [.blank, .countryHeader p.1 p.2.length] = [] := rfl
  have h3 : StreamProcessor.detailFires
      (if 5 < p.2.length then [StreamProcessor.MsgLine.overflow (p.2.length - 5)]
       else []) = [] := by
    by_cases h : 5 < p.2.length <;> simp [h, StreamProcessor.detailFires]
  rw [h1, h3]
  simp

theorem countryBlock_overflow (p : String × List StreamProcessor.StreamFire) :
    StreamProcessor.overflowOf (StreamProcessor.countryBlock p) =
      (if 5 < p.2.length then [StreamProcessor.MsgLine.overflow (p.2.length - 5)]
       else []) := by
  unfold StreamProcessor.countryBlock
  rw [overflowOf_append, overflowOf_append, overflowOf_pairs]
  have h1 : StreamProcessor.overflowOf
      [.blank, .countryHeader p.1 p.2.length] = [] := rfl
  have h3 : StreamProcessor.overflowOf
      (if 5 < p.2.length then [StreamProcessor.MsgLine.overflow (p.2.length - 5)]
       else []) =
      (if 5 < p.2.length then [StreamProcessor.MsgLine.overflow (p.2.length - 5)]
       else []) := by
    by_cases h : 5 < p.2.length <;> simp [h, StreamProcessor.overflowOf]
  rw [h1, h3]
  simp

end Aux

/-- C7: for a non-empty list of INSERTed records, the alert message
renders the country groups in lexicographic key order; each group holds
exactly the arriving fires of that country in arrival order; each
country block shows the first `min 5 k` fires as detail lines and carries
the overflow line `... and K more` with `K = k - 5` exactly when the
group size `k` exceeds 5; and the message is the header, the group
blocks in order, and the footer. -/
theorem alert_aggregation_shape (fires : List StreamProcessor.StreamFire)
    (_hne : fires ≠ []) :
    List.Sorted (fun a b => a ≤ b)
        ((StreamProcessor.sorted_groups fires).map Prod.fst)
    ∧ (∀ p ∈ StreamProcessor.sorted_groups fires,
        p.2 = fires.filter (fun f => f.location_country == p.1))
    ∧ (∀ p ∈ StreamProcessor.sorted_groups fires,
        StreamProcessor.detailFires (StreamProcessor.countryBlock p) = p.2.take 5
        ∧ (StreamProcessor.detailFires (StreamProcessor.countryBlock p)).length =
            min 5 p.2.length
        ∧ StreamProcessor.overflowOf (StreamProcessor.countryBlock p) =
            (if 5 < p.2.length then
              [StreamProcessor.MsgLine.overflow (p.2.length - 5)] else []))
    ∧ StreamProcessor.alertMessage fires =
        StreamProcessor.headerLines fires.length
          ++ (StreamProcessor.sorted_groups fires).flatMap StreamProcessor.countryBlock
          ++ StreamProcessor.footerLines := by
  refine ⟨Aux.groups_sorted fires, Aux.groups_filter fires, ?_, rfl⟩
  intro p _
  refine ⟨Aux.countryBlock_details p, ?_, Aux.countryBlock_overflow p⟩
  rw [Aux.countryBlock_details p]
  simp [List.length_take]

/-- C7 witness: six INSERTed fires, all in Mexico — the single group
shows 5 detail lines and the overflow line counts the one extra fire. -/
theorem alert_aggregation_shape_witness :
    StreamProcessor.mexSix ≠ []
    ∧ (List.Sorted (fun a b => a ≤ b)
          ((StreamProcessor.sorted_groups StreamProcessor.mexSix).map Prod.fst)
      ∧ (∀ p ∈ StreamProcessor.sorted_groups StreamProcessor.mexSix,
          p.2 = StreamProcessor.mexSix.filter (fun f => f.location_country == p.1))
      ∧ (∀ p ∈ StreamProcessor.sorted_groups StreamProcessor.mexSix,
          StreamProcessor.detailFires (StreamProcessor.countryBlock p) = p.2.take 5
          ∧ (StreamProcessor.detailFires (StreamProcessor.countryBlock p)).length =
              min 5 p.2.length
          ∧ StreamProcessor.overflowOf (StreamProcessor.countryBlock p) =
              (if 5 < p.2.length then
                [StreamProcessor.MsgLine.overflow (p.2.length - 5)] else []))
      ∧ StreamProcessor.alertMessage StreamProcessor.mexSix =
          StreamProcessor.headerLines StreamProcessor.mexSix.length
            ++ (StreamProcessor.sorted_groups StreamProcessor.mexSix).flatMap
                StreamProcessor.countryBlock
            ++ StreamProcessor.footerLines) :=
  ⟨by decide, alert_aggregation_shape StreamProcessor.mexSix (by decide)⟩

/-- C6: the row loop of `parse_csv_data` is exactly a per-row filter —
it keeps the rows whose parse succeeds, in order, independently of its
neighbours; a row parses to nothing exactly when it is shorter than the
header or one of the four numeric columns fails to parse; and the
concrete feed response of three valid rows plus one row with latitude
`abc` yields exactly 3 detections. -/
theorem csv_row_filter :
    (∀ (α : Type) (pf : String → Option α) (zero : α) (header : List String)
        (rows : List String),
      FetchFires.parseRowsLoop pf zero header rows =
        rows.filterMap (FetchFires.parseRow pf zero header))
    ∧ (∀ (α : Type) (pf : String → Option α) (zero : α) (header : List String)
        (line : String),
      FetchFires.parseRow pf zero header line = none ↔
        ((PyStr.split ',' line).length < header.length
          ∨ ∃ k ∈ (["latitude", "longitude", "brightness", "frp"] : List String),
              FetchFires.numField pf zero (header.zip (PyStr.split ',' line)) k = none))
    ∧ (FetchFires.parse_csv_data FetchFires.digitsNum 0 FetchFires.exampleCsv).length = 3 := by
  refine ⟨?_, ?_, by decide⟩
  · intro α pf zero header rows
    induction rows with
    | nil => rfl
    | cons line rest ih =>
      cases h : FetchFires.parseRow pf zero header line <;>
        simp [FetchFires.parseRowsLoop, h, List.filterMap_cons, ih]
  · intro α pf zero header line
    unfold FetchFires.parseRow
    by_cases hlen : (PyStr.split ',' line).length < header.length
    · simp [hlen]
    · simp only [hlen, if_false, false_or]
      rcases h1 : FetchFires.numField pf zero (header.zip (PyStr.split ',' line)) "latitude"
        with _ | la <;>
      rcases h2 : FetchFires.numField pf zero (header.zip (PyStr.split ',' line)) "longitude"
        with _ | lo <;>
      rcases h3 : FetchFires.numField pf zero (header.zip (PyStr.split ',' line)) "brightness"
        with _ | br <;>
      rcases h4 : FetchFires.numField pf zero (header.zip (PyStr.split ',' line)) "frp"
        with _ | fr <;>
      simp [h1, h2, h3, h4]

namespace Aux

theorem lfFireId_ne {lat lon : String} {ts1 ts2 : Nat} (h : ts1 ≠ ts2) :
    LambdaFunction.lfFireId lat lon ts1 ≠ LambdaFunction.lfFireId lat lon ts2 := by
  intro hc
  apply h
  apply natRepr_injective
  apply string_eq_of_data
  have hd := congrArg String.data hc
  simp only [LambdaFunction.lfFireId, String.data_append, List.append_assoc] at hd
  exact List.append_cancel_left (List.append_cancel_left (List.append_cancel_left
    (List.append_cancel_left hd)))

end Aux

/-- C10: the alternate entry point of `lambda_function.py` has no
deduplication — the stored key is always coordinates plus the ingest
second, and the put is unconditional, so invoking the handler twice on
the identical single-fire input at two different ingest seconds leaves
two distinct records in the store. -/
theorem lf_no_dedup (fire : ProcessFires.FireInput) (lat lon : String)
    (geo : Option ProcessFires.GeoResponse) (ts1 ts2 : Nat)
    (hla : fire.latitude = some lat) (hlo : fire.longitude = some lon)
    (hts : ts1 ≠ ts2) :
    ((LambdaFunction.lambda_handler [(fire, geo)] ts1 []).1).map Prod.fst
        = [LambdaFunction.lfFireId lat lon ts1]
    ∧ ((LambdaFunction.lambda_handler [(fire, geo)] ts2
          (LambdaFunction.lambda_handler [(fire, geo)] ts1 []).1).1).map Prod.fst
        = [LambdaFunction.lfFireId lat lon ts1, LambdaFunction.lfFireId lat lon ts2]
    ∧ LambdaFunction.lfFireId lat lon ts1 ≠ LambdaFunction.lfFireId lat lon ts2
    ∧ ((LambdaFunction.lambda_handler [(fire, geo)] ts2
          (LambdaFunction.lambda_handler [(fire, geo)] ts1 []).1).1).length = 2 := by
  have hne : LambdaFunction.lfFireId lat lon ts1 ≠ LambdaFunction.lfFireId lat lon ts2 :=
    Aux.lfFireId_ne hts
  have hblat : (LambdaFunction.buildRecord lat lon fire
      (LambdaFunction.get_location_from_coordinates geo)).latitude = lat := rfl
  have hblon : (LambdaFunction.buildRecord lat lon fire
      (LambdaFunction.get_location_from_coordinates geo)).longitude = lon := rfl
  have hh : ∀ (store : LambdaFunction.LFStore) (ts : Nat),
      (LambdaFunction.lambda_handler [(fire, geo)] ts store).1 =
        LambdaFunction.store_fire_data store
          (LambdaFunction.buildRecord lat lon fire
            (LambdaFunction.get_location_from_coordinates geo)) ts := by
    intro store ts
    unfold LambdaFunction.lambda_handler
    simp [LambdaFunction.stepFire, hla, hlo]
  have h1 : (LambdaFunction.lambda_handler [(fire, geo)] ts1 []).1 =
      [(LambdaFunction.lfFireId lat lon ts1,
        { fire_id := LambdaFunction.lfFireId lat lon ts1
          timestamp := ts1
          latitude := lat
          longitude := lon
          brightness := if ProcessFires.truthyNum
              ((LambdaFunction.buildRecord lat lon fire
                (LambdaFunction.get_location_from_coordinates geo)).brightness) then
              (LambdaFunction.buildRecord lat lon fire
                (LambdaFunction.get_location_from_coordinates geo)).brightness
            else "0"
          confidence := (LambdaFunction.buildRecord lat lon fire
            (LambdaFunction.get_location_from_coordinates geo)).confidence
          frp := if ProcessFires.truthyNum
              ((LambdaFunction.buildRecord lat lon fire
                (LambdaFunction.get_location_from_coordinates geo)).frp) then
              (LambdaFunction.buildRecord lat lon fire
                (LambdaFunction.get_location_from_coordinates geo)).frp
            else "0"
          location_city := (LambdaFunction.buildRecord lat lon fire
            (LambdaFunction.get_location_from_coordinates geo)).location_city
          location_locality := (LambdaFunction.buildRecord lat lon fire
            (LambdaFunction.get_location_from_coordinates geo)).location_locality
          location_state := (LambdaFunction.buildRecord lat lon fire
            (LambdaFunction.get_location_from_coordinates geo)).location_state
          location_country := (LambdaFunction.buildRecord lat lon fire
            (LambdaFunction.get_location_from_coordinates geo)).location_country
          created_at := ts1 })] := by
    rw [hh]
    simp [LambdaFunction.store_fire_data, LambdaFunction.put_item, hblat, hblon]
  refine ⟨?_, ?_, hne, ?_⟩
  · rw [h1]; rfl
  · rw [hh, h1]
    have hb : (LambdaFunction.lfFireId lat lon ts1 ==
        LambdaFunction.lfFireId lat lon ts2) = false :=
      beq_eq_false_iff_ne.mpr hne
    simp [LambdaFunction.store_fire_data, LambdaFunction.put_item, hb, hblat, hblon]
  · rw [hh, h1]
    have hb : (LambdaFunction.lfFireId lat lon ts1 ==
        LambdaFunction.lfFireId lat lon ts2) = false :=
      beq_eq_false_iff_ne.mpr hne
    simp [LambdaFunction.store_fire_data, LambdaFunction.put_item, hb, hblat, hblon]

/-- C10 witness: the fully populated detection (acquisition fields and
all) stored at seconds 3 and 4. -/
theorem lf_no_dedup_witness :
    ProcessFires.fireA.latitude = some "10.5"
    ∧ ProcessFires.fireA.longitude = some "-20.25"
    ∧ (3 : Nat) ≠ 4
    ∧ (((LambdaFunction.lambda_handler [(ProcessFires.fireA, none)] 3 []).1).map Prod.fst
        = [LambdaFunction.lfFireId "10.5" "-20.25" 3]
      ∧ ((LambdaFunction.lambda_handler [(ProcessFires.fireA, none)] 4
            (LambdaFunction.lambda_handler [(ProcessFires.fireA, none)] 3 []).1).1).map Prod.fst
        = [LambdaFunction.lfFireId "10.5" "-20.25" 3, LambdaFunction.lfFireId "10.5" "-20.25" 4]
      ∧ LambdaFunction.lfFireId "10.5" "-20.25" 3 ≠ LambdaFunction.lfFireId "10.5" "-20.25" 4
      ∧ ((LambdaFunction.lambda_handler [(ProcessFires.fireA, none)] 4
            (LambdaFunction.lambda_handler [(ProcessFires.fireA, none)] 3 []).1).1).length = 2) :=
  ⟨rfl, rfl, by decide,
   lf_no_dedup ProcessFires.fireA "10.5" "-20.25" none 3 4 rfl rfl (by decide)⟩
